import Mathlib

/-!
Verification development for the Cosmos-NoSQL ⇄ ADLS ETL engine
(`dcsazure_Cosmos_NoSQL_to_Cosmos_NoSQL_discovery_pl/Cosmos_to_ADLS/function_app.py`,
the export pipeline, and
`dcsazure_Cosmos_NoSQL_to_Cosmos_NoSQL_mask_pl/ADLS_to_Cosmos/function_app.py`,
the import pipeline).

The Python sources are shallowly embedded:
* JSON documents are a tagged tree `V` (Python dicts keep insertion order and
  have unique keys, so objects are association lists with replace-in-place
  assignment semantics);
* floats are modelled as exact rationals (the decimal literals appearing in
  the sources — 1.5, 1.1, 0.8, 0.6, 0.5, 0.95, 0.75, 0.2, 0.1 — are exact in
  the ranges exercised, and every claim settled here is insensitive to the
  last-ulp error of binary floating point);
* `time.time()` / `time.sleep` are idealized: the clock is an explicit
  rational parameter and a sleep advances it by exactly the slept amount;
* randomness (retry jitter) is an explicit oracle parameter;
* queue-based iteration uses an explicit fuel argument large enough for every
  input exercised (the Python loops terminate because each dequeued node only
  enqueues strict subobjects).
-/

/-! ## JSON value model

`V` is the value model of §3 of the design: scalars, arrays, objects.
`Fields` is a Python `dict` (insertion-ordered association list, unique keys),
`VList` a Python `list`.  A mutual inductive is used (rather than nesting
`List`) so that all recursions are structural and all proofs compute. -/

mutual

inductive V where
  | null
  | bool (b : Bool)
  | num (q : ℚ)
  | str (s : String)
  | arr (elems : VList)
  | obj (fields : Fields)
  deriving Repr, DecidableEq

inductive VList where
  | nil
  | cons (hd : V) (tl : VList)
  deriving Repr, DecidableEq

inductive Fields where
  | nil
  | cons (k : String) (v : V) (tl : Fields)
  deriving Repr, DecidableEq

end

namespace VList

def toList : VList → List V
  | .nil => []
  | .cons v tl => v :: toList tl

def ofList : List V → VList
  | [] => .nil
  | v :: tl => .cons v (ofList tl)

def append : VList → VList → VList
  | .nil, ys => ys
  | .cons x tl, ys => .cons x (append tl ys)

end VList

namespace Fields

/-- `d[k]` (first — and by the dict invariant only — binding wins). -/
def get? : Fields → String → Option V
  | .nil, _ => none
  | .cons k' v tl, k => if k' = k then some v else get? tl k

/-- `k in d`. -/
def hasKey (fs : Fields) (k : String) : Bool :=
  (fs.get? k).isSome

/-- `d[k] = v`: replace in place if the key exists (Python dicts keep the
original position), otherwise append. -/
def set : Fields → String → V → Fields
  | .nil, k, v => .cons k v .nil
  | .cons k' v' tl, k, v =>
      if k' = k then .cons k' v tl else .cons k' v' (set tl k v)

/-- `del d[k]` (no-op when absent, matching `dict.pop(k, None)`). -/
def erase : Fields → String → Fields
  | .nil, _ => .nil
  | .cons k' v tl, k => if k' = k then tl else .cons k' v (erase tl k)

/-- `d.update(other)`: assignments in `other`'s order. -/
def update (fs other : Fields) : Fields :=
  match other with
  | .nil => fs
  | .cons k v tl => update (fs.set k v) tl

def keys : Fields → List String
  | .nil => []
  | .cons k _ tl => k :: keys tl

def toList : Fields → List (String × V)
  | .nil => []
  | .cons k v tl => (k, v) :: toList tl

def ofList : List (String × V) → Fields
  | [] => .nil
  | (k, v) :: tl => .cons k v (ofList tl)

/-- `{k: v for k, v in d.items() if p k v}` (comprehensions preserve order). -/
def filterKV (p : String → V → Bool) : Fields → Fields
  | .nil => .nil
  | .cons k v tl => if p k v then .cons k v (filterKV p tl) else filterKV p tl

def length : Fields → ℕ
  | .nil => 0
  | .cons _ _ tl => 1 + length tl

end Fields

/-- Python truthiness of the values that the sources test with `if v:`. -/
def V.truthy : V → Bool
  | .null => false
  | .bool b => b
  | .num q => q ≠ 0
  | .str s => s ≠ ""
  | .arr .nil => false
  | .arr _ => true
  | .obj .nil => false
  | .obj _ => true

/-- `str(v)` for the values the pipelines convert with `str(...)`
(rids are strings, absent values are `None`). -/
def V.pyStr : V → String
  | .str s => s
  | .null => "None"
  | .bool true => "True"
  | .bool false => "False"
  | .num q => toString q
  | .arr _ => "<list>"
  | .obj _ => "<dict>"

/-! ## Export side: flattening and the iterative shredder

`flatten_no_arrays` embeds the inner helper of
`extract_arrays_iterative_optimized` (discovery pipeline, lines 719-739):
nested dicts are flattened to dotted keys, arrays are kept as-is.
Python's sequential `flat[key] = v` / `flat.update(...)` construction equals
a right fold with `Fields.update` because dict update is associative
("leftmost position, rightmost value"). -/

def flatten_no_arrays : Fields → String → Fields
  | .nil, _ => .nil
  | .cons k v tl, parent =>
    let key := if parent = "" then k else parent ++ "." ++ k
    let head : Fields :=
      match v with
      | .arr xs => .cons key (.arr xs) .nil
      | .obj o => flatten_no_arrays o key
      | x => .cons key x .nil
    head.update (flatten_no_arrays tl parent)

def V.isObj : V → Bool
  | .obj _ => true
  | _ => false

/- Number of values in a tree; used only to hand the queue loop enough fuel
(each dequeued item enqueues strict subobjects, so the number of dequeues is
bounded by the number of `obj` nodes). -/
mutual

def V.nodes : V → ℕ
  | .arr xs => 1 + xs.nodes
  | .obj fs => 1 + fs.nodes
  | _ => 1

def VList.nodes : VList → ℕ
  | .nil => 0
  | .cons v tl => v.nodes + tl.nodes

def Fields.nodes : Fields → ℕ
  | .nil => 0
  | .cons _ v tl => v.nodes + tl.nodes

end

/-- Append a row to a (insertion-ordered) table map, creating the table at the
end on first use — models `current_batch.setdefault/append` followed by the
order-preserving batch concatenation of lines 795-818. -/
def tableAppend : List (String × List Fields) → String → Fields → List (String × List Fields)
  | [], name, row => [(name, [row])]
  | (n, rows) :: tl, name, row =>
      if n = name then (n, rows ++ [row]) :: tl else (n, rows) :: tableAppend tl name row

/-- Give each object item of an array a fresh `_rid` and `_parent_rid`
(lines 758-761 and 787-790); returns the mutated items and the next counter. -/
def assignRids (fresh : ℕ → String) (ownerRid : V) :
    List V → ℕ → List Fields × ℕ
  | [], c => ([], c)
  | .obj o :: tl, c =>
      let o' := (o.set "_rid" (.str (fresh c))).set "_parent_rid" ownerRid
      let (rest, c') := assignRids fresh ownerRid tl (c + 1)
      (o' :: rest, c')
  | _ :: tl, c => assignRids fresh ownerRid tl c

/-- One pass over the flattened entries of a document or array element
(lines 744-763 for the root, 773-793 for queue items): scalars and
primitive-only arrays stay in the row, object arrays leave a
`_has_array_<key>` marker and enqueue their object elements.
`tpfx` is `""` at the root and the current table name inside the queue. -/
def shredEntries (fresh : ℕ → String) (ownerRid : V) (tpfx : String) :
    Fields → Fields → ℕ → Fields × List (Fields × String × V) × ℕ
  | .nil, acc, c => (acc, [], c)
  | .cons key v tl, acc, c =>
    match v with
    | .arr xs =>
      let elems := xs.toList
      let primitiveItems := elems.filter (fun e => !e.isObj)
      let dictItems := elems.filter V.isObj
      if primitiveItems ≠ [] ∧ dictItems = [] then
        shredEntries fresh ownerRid tpfx tl (acc.set key (.arr xs)) c
      else
        let acc' := acc.set ("_has_array_" ++ key) (.bool true)
        let (items, c') := assignRids fresh ownerRid dictItems c
        let tbl := if tpfx = "" then key else tpfx ++ "." ++ key
        let (accF, q, cF) := shredEntries fresh ownerRid tpfx tl acc' c'
        (accF, items.map (fun o => (o, tbl, ownerRid)) ++ q, cF)
    | x => shredEntries fresh ownerRid tpfx tl (acc.set key x) c

/-- The breadth-first queue drain of lines 768-810.  Rows are appended to
their table in dequeue order (batch materialization preserves order). -/
def shredLoop (fresh : ℕ → String) :
    ℕ → List (Fields × String × V) → List (String × List Fields) → ℕ →
      List (String × List Fields) × ℕ
  | 0, _, tables, c => (tables, c)
  | _ + 1, [], tables, c => (tables, c)
  | fuel + 1, (current, tbl, parentRid) :: rest, tables, c =>
    let rid := (current.get? "_rid").getD .null
    let flat := flatten_no_arrays current ""
    let row0 := (Fields.nil.set "_rid" rid).set "_parent_rid" parentRid
    let (row, adds, c') := shredEntries fresh rid tbl flat row0 c
    shredLoop fresh fuel (rest ++ adds) (tableAppend tables tbl row) c'

/-- `extract_arrays_iterative_optimized` (discovery pipeline, lines 678-820):
shred one document into a parent row and child tables.  `fresh` supplies the
`uuid.uuid4()` rids (fresh values are assumed distinct by the caller). -/
def extract_arrays_iterative_optimized (fresh : ℕ → String) (doc : Fields) :
    Fields × List (String × List Fields) :=
  let (rootRid, c0) : V × ℕ :=
    match doc.get? "_rid" with
    | some v => if v.truthy then (v, 0) else (.str (fresh 0), 1)
    | none => (.str (fresh 0), 1)
  let doc' := doc.set "_rid" rootRid
  let flatRoot := flatten_no_arrays doc' ""
  let (parentFields, queue0, c1) := shredEntries fresh rootRid "" flatRoot .nil c0
  let (tables, _) := shredLoop fresh (doc.nodes + 1) queue0 [] c1
  (parentFields, tables)

/-- Default rid supply used for concrete runs: `r0`, `r1`, ... -/
def ridSupply (n : ℕ) : String := "r" ++ toString n

/-! ## Claim C2: export of a document with an empty array -/

/-- The document `{"id":"B","tags":[]}` of export scenario 2. -/
def docEmptyTags : Fields := .cons "id" (.str "B") (.cons "tags" (.arr .nil) .nil)

/-! ## CsvTableWriter: `upload_csv_to_adls` (discovery pipeline, lines 870-1061)

The byte layer is elided: a CSV file is modelled as its list of
pipe-delimited records (`List (List String)`), the first record being the
header when one was written.  Cells reaching the writer are the scalar values
left by `clean_dataframe`, modelled post-stringification as `Option String`
(`none` is a null, serialized by `serialize_cell` to the empty field).
`pd.read_csv(..., keep_default_na=False)` reads every field back as a string,
the empty field included. -/

def serialize_cell (c : Option String) : String := c.getD ""

/-- Lexicographic comparison of code-point lists (computable by the kernel,
unlike `String.le`'s iterator-based implementation; the two agree). -/
def charsLe : List Char → List Char → Bool
  | [], _ => true
  | _ :: _, [] => false
  | a :: as, b :: bs => if a < b then true else if b < a then false else charsLe as bs

def strLe (a b : String) : Bool := charsLe a.data b.data

/-- Ascending insertion (stable, duplicates kept in order) — `sorted(...)`. -/
def insertSorted (s : String) : List String → List String
  | [] => [s]
  | t :: tl => if strLe s t then s :: t :: tl else t :: insertSorted s tl

def sortStrings : List String → List String
  | [] => []
  | s :: tl => insertSorted s (sortStrings tl)

/-- `df[order]`: select/reorder the positional cells of one row whose columns
are `cols`. -/
def reorderRow (cols order : List String) (row : List (Option String)) :
    List (Option String) :=
  order.map (fun c => row.getD (cols.indexOf c) none)

/-- Set union keeping the left operand's elements first (the claims only
inspect it through `sortStrings`, so the Python hash order is immaterial). -/
def unionList (xs ys : List String) : List String :=
  xs ++ ys.filter (fun y => !xs.contains y)

inductive CsvMode where
  | write
  | append
  deriving Repr, DecidableEq

/-- `upload_csv_to_adls`: `file` is the current object-store content
(`none` = the file does not exist), `cols`/`rows` the cleaned DataFrame in
column order, `known?` the `known_columns` schema (`none` on first use).
Returns the new file content and the updated known-column set. -/
def upload_csv_to_adls (file : Option (List (List String))) (cols : List String)
    (rows : List (List (Option String))) (mode : CsvMode)
    (known? : Option (List String)) :
    Option (List (List String)) × List String :=
  if rows = [] then (file, known?.getD []) else
  let known := known?.getD cols
  let newColumns := cols.filter (fun c => !known.contains c)
  -- schema evolution: read–merge–rewrite (lines 933-986)
  match mode, file with
  | .append, some f =>
    if newColumns ≠ [] ∧ f ≠ [] then
      let ecols := f.headD []
      let erows := (f.drop 1).map (fun r => r.map some)
      let ecols' := ecols ++ newColumns
      let erows' := erows.map (fun r => r ++ newColumns.map (fun _ => (none : Option String)))
      let known' := unionList known newColumns
      let missing := known'.filter (fun c => !cols.contains c)
      let cols2 := cols ++ missing
      let rows2 := rows.map (fun r => r ++ missing.map (fun _ => (none : Option String)))
      let order := sortStrings known'
      let recs := (erows'.map (reorderRow ecols' order) ++ rows2.map (reorderRow cols2 order)).map
        (fun r => r.map serialize_cell)
      (some ([order] ++ recs), known')
    else
      -- standard append (lines 988-998 and 1022-1054)
      let missing := known.filter (fun c => !cols.contains c)
      let cols2 := cols ++ missing
      let rows2 := rows.map (fun r => r ++ missing.map (fun _ => (none : Option String)))
      let order := if known ≠ [] then sortStrings known else cols2
      let recs := rows2.map (fun r => (reorderRow cols2 order r).map serialize_cell)
      (some (f ++ recs), unionList known cols)
  | .append, none =>
      -- the file does not exist: create it with a header (lines 1035, 1046-1047)
      let missing := known.filter (fun c => !cols.contains c)
      let cols2 := cols ++ missing
      let rows2 := rows.map (fun r => r ++ missing.map (fun _ => (none : Option String)))
      let order := if known ≠ [] then sortStrings known else cols2
      let recs := rows2.map (fun r => (reorderRow cols2 order r).map serialize_cell)
      (some ([order] ++ recs), unionList known cols)
  | .write, _ =>
      -- overwrite: delete and write afresh with a header (lines 1001-1021)
      let missing := known.filter (fun c => !cols.contains c)
      let cols2 := cols ++ missing
      let rows2 := rows.map (fun r => r ++ missing.map (fun _ => (none : Option String)))
      let order := if known ≠ [] then sortStrings known else cols2
      let recs := rows2.map (fun r => (reorderRow cols2 order r).map serialize_cell)
      (some ([order] ++ recs), unionList known cols)

/-! ## RateLimiter: `TokenBucketRUManager` (discovery pipeline, lines 265-339)

The clock is an explicit rational `now`; `consume` returns the slept time and
assumes the sleep lasts exactly the requested amount (so the second refill
sees the clock advanced by the wait). -/

structure TokenBucketRUManager where
  maxRusPerSecond : ℚ
  tokens : ℚ
  lastRefill : ℚ
  totalConsumed : ℚ
  operationsCount : ℕ
  deriving Repr, DecidableEq

/-- `__init__`: `max_rus_per_second = int(throughput * (1 - reserve_percent))`. -/
def TokenBucketRUManager.init (throughput reservePercent now : ℚ) : TokenBucketRUManager :=
  let cap : ℚ := ⌊throughput * (1 - reservePercent)⌋
  { maxRusPerSecond := cap, tokens := cap, lastRefill := now,
    totalConsumed := 0, operationsCount := 0 }

/-- `_refill_tokens` (lines 290-300). -/
def refill_tokens (b : TokenBucketRUManager) (now : ℚ) : TokenBucketRUManager :=
  let elapsed := now - b.lastRefill
  if 0 < elapsed then
    { b with
        tokens := min b.maxRusPerSecond (b.tokens + elapsed * b.maxRusPerSecond),
        lastRefill := now }
  else b

/-- `consume` (lines 302-320); returns the new state and the slept time. -/
def TokenBucketRUManager.consume (b : TokenBucketRUManager) (now ruCharge : ℚ) :
    TokenBucketRUManager × ℚ :=
  let b1 := refill_tokens b now
  let (b2, wait) :=
    if b1.tokens < ruCharge then
      let deficit := ruCharge - b1.tokens
      let w := deficit / b1.maxRusPerSecond
      (refill_tokens b1 (now + w), w)
    else (b1, 0)
  ({ b2 with
      tokens := b2.tokens - ruCharge,
      totalConsumed := b2.totalConsumed + ruCharge,
      operationsCount := b2.operationsCount + 1 }, wait)

/-! ## RetryPolicy wait computations

Export side: `CosmosRetryStrategy` (discovery pipeline, lines 347-499).
Import side: `_calculate_throttle_wait_time` (mask pipeline, lines 953-987).
The `x-ms-retry-after-ms` header is modelled as the parsed millisecond value
(`none` when the header is absent, empty, or unparsable — all of which make
`_extract_retry_after` return `None`).  Jitter (`random.uniform(0, f*wait)`)
is modelled by an explicit fraction `jitterFrac ∈ [0,1]` of its upper bound. -/

def DEFAULT_MAX_RETRIES : ℕ := 5

def DEFAULT_BASE_DELAY : ℚ := 1 / 10

def DEFAULT_MAX_DELAY : ℚ := 60

/-- `_calculate_backoff` (discovery, lines 476-486). -/
def calculate_backoff (attempt : ℕ) : ℚ :=
  min (DEFAULT_BASE_DELAY * 2 ^ attempt) DEFAULT_MAX_DELAY

/-- `_extract_retry_after` (discovery, lines 457-474): header milliseconds to
seconds. -/
def extract_retry_after (retryAfterMs : Option ℚ) : Option ℚ :=
  retryAfterMs.map (· / 1000)

/-- The pre-jitter wait chosen by `execute_with_retry` (discovery, lines
408-418) for a retryable error: on a 429 the extracted header value is used
*when truthy* (`retry_after if retry_after else self._calculate_backoff(...)`
— a parsed value of `0.0` is falsy and falls back to the backoff). -/
def execute_with_retry_wait (is429 : Bool) (retryAfterMs : Option ℚ) (attempt : ℕ) : ℚ :=
  let retryAfter := if is429 then extract_retry_after retryAfterMs else none
  match retryAfter with
  | some r => if r = 0 then calculate_backoff attempt else r
  | none => calculate_backoff attempt

def RETRY_MAX_ATTEMPTS : ℕ := 10

def RETRY_BASE_DELAY : ℚ := 1

def BACKOFF_MULTIPLIER : ℚ := 2

def AUTOSCALE_SCALE_UP_WAIT_MS : ℚ := 100

/-- The pre-jitter wait of `_calculate_throttle_wait_time` (mask pipeline,
lines 971-985).  Note the autoscale branch halves the server hint. -/
def throttle_wait_base (retryAfterMs : Option ℚ) (attempt : ℕ) (isAutoscale : Bool) : ℚ :=
  if isAutoscale then
    match retryAfterMs with
    | some h => h / 1000 * (1 / 2)
    | none => max (AUTOSCALE_SCALE_UP_WAIT_MS / 1000) (RETRY_BASE_DELAY * (3 / 2) ^ attempt)
  else
    match retryAfterMs with
    | some h => h / 1000
    | none => RETRY_BASE_DELAY * BACKOFF_MULTIPLIER ^ attempt

/-- `_calculate_throttle_wait_time` including its jitter
(`np.random.uniform(0, 0.05*w)` for autoscale, `(0, 0.1*w)` for manual). -/
def calculate_throttle_wait_time (retryAfterMs : Option ℚ) (attempt : ℕ)
    (isAutoscale : Bool) (jitterFrac : ℚ) : ℚ :=
  let w := throttle_wait_base retryAfterMs attempt isAutoscale
  w + jitterFrac * ((if isAutoscale then 1 / 20 else 1 / 10) * w)

/-! ## ThrottleController: `calculate_optimal_concurrency` and
`AdaptiveThrottleManager` (mask pipeline, lines 606-863)

`int(c * 1.5)`, `int(c * 1.1)`, `int(c * 1.2)`, `int(c * 0.8)`, `int(c * 0.6)`
and `int(c * 0.5)` on the integer batch sizes are the floor divisions
`c*3/2`, `c*11/10`, `c*6/5`, `c*4/5`, `c*3/5`, `c/2`. -/

def AUTOSCALE_RU_SAFETY_MARGIN : ℚ := 19 / 20

def MANUAL_RU_SAFETY_MARGIN : ℚ := 3 / 4

def MIN_CONCURRENT_OPERATIONS : ℕ := 5

def MAX_CONCURRENT_OPERATIONS_ABSOLUTE : ℕ := 500

def ESTIMATED_RU_PER_UPSERT : ℚ := 10

def ESTIMATED_RU_PER_KB : ℚ := 5

def AUTOSCALE_MIN_THROTTLES_BEFORE_BACKOFF : ℕ := 5

def MANUAL_MIN_THROTTLES_BEFORE_BACKOFF : ℕ := 2

structure ConcurrencyConfig where
  maxConcurrentOperations : ℤ
  initialBatchSize : ℕ
  minBatchSize : ℕ
  maxBatchSize : ℕ
  estimatedRuPerDoc : ℚ
  availableRusPerSecond : ℚ
  isAutoscale : Bool
  deriving Repr, DecidableEq

/-- `calculate_optimal_concurrency` (mask pipeline, lines 606-664). -/
def calculate_optimal_concurrency (provisionedRus : ℚ) (isAutoscale isServerless : Bool)
    (totalDocs : ℕ) (avgDocSizeKb : ℚ) : ConcurrencyConfig :=
  let estimatedRuPerDoc := ESTIMATED_RU_PER_UPSERT + avgDocSizeKb * ESTIMATED_RU_PER_KB
  let safetyMargin := if isAutoscale then AUTOSCALE_RU_SAFETY_MARGIN else MANUAL_RU_SAFETY_MARGIN
  let ruMultiplier : ℚ := if isAutoscale then 3 / 2 else 1
  let availableRus := provisionedRus * safetyMargin
  let maxConcurrent0 : ℤ :=
    if isServerless then
      min ⌊availableRus / estimatedRuPerDoc * 2⌋ (MAX_CONCURRENT_OPERATIONS_ABSOLUTE : ℤ)
    else
      min ⌊availableRus / estimatedRuPerDoc * ruMultiplier⌋ (MAX_CONCURRENT_OPERATIONS_ABSOLUTE : ℤ)
  let initialBatch0 : ℕ :=
    if isServerless then min 100 (totalDocs / 10)
    else if isAutoscale then min 100 (totalDocs / 10)
    else min 30 (totalDocs / 30)
  let maxConcurrent := max maxConcurrent0 (MIN_CONCURRENT_OPERATIONS : ℤ)
  let initialBatch := max initialBatch0 MIN_CONCURRENT_OPERATIONS
  { maxConcurrentOperations := maxConcurrent
    initialBatchSize := initialBatch
    minBatchSize := max 5 (initialBatch / 10)
    maxBatchSize :=
      if isAutoscale then min 300 (initialBatch * 5) else min 200 (initialBatch * 4)
    estimatedRuPerDoc := estimatedRuPerDoc
    availableRusPerSecond := availableRus
    isAutoscale := isAutoscale }

structure AdaptiveThrottleManager where
  isAutoscale : Bool
  currentBatchSize : ℕ
  minBatchSize : ℕ
  maxBatchSize : ℕ
  maxConcurrent : ℤ
  consecutiveSuccesses : ℕ
  consecutiveThrottles : ℕ
  totalThrottles : ℕ
  totalRusConsumed : ℚ
  totalOperations : ℕ
  avgRuPerOperation : ℚ
  autoscaleWarmupPeriod : Bool
  operationsSinceLastThrottle : ℕ
  autoscaleMaxReached : Bool
  highThrottleCountAtMax : ℕ
  throttleTolerance : ℕ
  deriving Repr, DecidableEq

/-- `AdaptiveThrottleManager.__init__` (mask pipeline, lines 699-736). -/
def AdaptiveThrottleManager.init (cfg : ConcurrencyConfig) : AdaptiveThrottleManager where
  isAutoscale := cfg.isAutoscale
  currentBatchSize := cfg.initialBatchSize
  minBatchSize := cfg.minBatchSize
  maxBatchSize := cfg.maxBatchSize
  maxConcurrent := cfg.maxConcurrentOperations
  consecutiveSuccesses := 0
  consecutiveThrottles := 0
  totalThrottles := 0
  totalRusConsumed := 0
  totalOperations := 0
  avgRuPerOperation := cfg.estimatedRuPerDoc
  autoscaleWarmupPeriod := true
  operationsSinceLastThrottle := 0
  autoscaleMaxReached := false
  highThrottleCountAtMax := 0
  throttleTolerance :=
    if cfg.isAutoscale then AUTOSCALE_MIN_THROTTLES_BEFORE_BACKOFF
    else MANUAL_MIN_THROTTLES_BEFORE_BACKOFF

/-- `_scale_up_if_needed` (mask pipeline, lines 760-788). -/
def scale_up_if_needed (s : AdaptiveThrottleManager) : AdaptiveThrottleManager :=
  if s.isAutoscale then
    let s1 :=
      if s.autoscaleWarmupPeriod then
        if s.consecutiveSuccesses ≥ 20 ∧ s.currentBatchSize < s.maxBatchSize then
          { s with currentBatchSize := min (s.currentBatchSize * 3 / 2) s.maxBatchSize,
                   consecutiveSuccesses := 0 }
        else s
      else
        if s.consecutiveSuccesses ≥ 30 ∧ s.currentBatchSize < s.maxBatchSize then
          { s with currentBatchSize := min (s.currentBatchSize * 11 / 10) s.maxBatchSize,
                   consecutiveSuccesses := 0 }
        else s
    let s2 :=
      if s1.operationsSinceLastThrottle > 100 then { s1 with autoscaleWarmupPeriod := false }
      else s1
    if s2.operationsSinceLastThrottle > 200 then { s2 with autoscaleMaxReached := true }
    else s2
  else
    if s.consecutiveSuccesses ≥ 10 ∧ s.currentBatchSize < s.maxBatchSize then
      { s with currentBatchSize := min (s.currentBatchSize * 6 / 5) s.maxBatchSize,
               consecutiveSuccesses := 0 }
    else s

/-- `report_success` (mask pipeline, lines 738-758). -/
def report_success (s : AdaptiveThrottleManager) (ruCharge : ℚ) : AdaptiveThrottleManager :=
  let s1 := { s with
    consecutiveSuccesses := s.consecutiveSuccesses + 1,
    consecutiveThrottles := 0,
    operationsSinceLastThrottle := s.operationsSinceLastThrottle + 1 }
  let s2 :=
    if 0 < ruCharge then
      { s1 with
          totalRusConsumed := s1.totalRusConsumed + ruCharge,
          totalOperations := s1.totalOperations + 1,
          avgRuPerOperation := (s1.totalRusConsumed + ruCharge) / (s1.totalOperations + 1 : ℕ) }
    else s1
  scale_up_if_needed s2

/-- `_scale_down_if_needed` (mask pipeline, lines 805-830). -/
def scale_down_if_needed (s : AdaptiveThrottleManager) : AdaptiveThrottleManager :=
  if s.isAutoscale then
    let s1 :=
      if s.autoscaleMaxReached then
        { s with highThrottleCountAtMax := s.highThrottleCountAtMax + 1 }
      else s
    if s1.consecutiveThrottles ≥ s1.throttleTolerance then
      let s2 :=
        if s1.autoscaleMaxReached ∧ s1.highThrottleCountAtMax > 3 then
          { s1 with currentBatchSize := max (s1.currentBatchSize / 2) s1.minBatchSize }
        else if s1.autoscaleWarmupPeriod then
          { s1 with currentBatchSize := max (s1.currentBatchSize * 4 / 5) s1.minBatchSize }
        else
          { s1 with currentBatchSize := max (s1.currentBatchSize * 3 / 5) s1.minBatchSize }
      { s2 with consecutiveThrottles := 0 }
    else s1
  else
    if s.consecutiveThrottles ≥ s.throttleTolerance then
      { s with currentBatchSize := max (s.currentBatchSize / 2) s.minBatchSize,
               consecutiveThrottles := 0 }
    else s

/-- `report_throttle` (mask pipeline, lines 790-803). -/
def report_throttle (s : AdaptiveThrottleManager) : AdaptiveThrottleManager :=
  scale_down_if_needed { s with
    consecutiveThrottles := s.consecutiveThrottles + 1,
    totalThrottles := s.totalThrottles + 1,
    consecutiveSuccesses := 0,
    operationsSinceLastThrottle := 0 }

/-- One success/throttle report. -/
inductive ThrottleEvent where
  | success (ru : ℚ)
  | throttle
  deriving Repr, DecidableEq

def applyThrottleEvents (s : AdaptiveThrottleManager) : List ThrottleEvent → AdaptiveThrottleManager
  | [] => s
  | .success ru :: es => applyThrottleEvents (report_success s ru) es
  | .throttle :: es => applyThrottleEvents (report_throttle s) es

/-! ## DocStoreWriter: `upsert_item_with_retry` (mask pipeline, lines 866-930)
and `_extract_partition_key` (lines 1071-1093)

The Cosmos SDK is an oracle mapping the attempt number to a response; the
semaphore only schedules concurrency and is not part of the per-document
result.  The loop returns the `(success, error, document, ru_charge)` tuple,
the updated throttle-manager state and the sequence of sleeps. -/

/-- Python `str.strip(c)`. -/
def stripChar (c : Char) (s : String) : String :=
  String.mk (((s.data.dropWhile (· = c)).reverse.dropWhile (· = c)).reverse)

def splitOnCharAux (c : Char) : List Char → List Char → List String
  | [], acc => [String.mk acc.reverse]
  | x :: xs, acc =>
      if x = c then String.mk acc.reverse :: splitOnCharAux c xs []
      else splitOnCharAux c xs (x :: acc)

/-- Python `s.split(c)` (a total split keeping empty pieces). -/
def splitOnChar (c : Char) (s : String) : List String := splitOnCharAux c s.data []

/-- The walk of `_extract_partition_key`: `pk_value = pk_value.get(part,
doc.get("id"))`, breaking at the first non-dict value. -/
def extractPkWalk (doc : Fields) : List String → V → V
  | [], v => v
  | part :: rest, .obj o =>
    let nxt := (o.get? part).getD ((doc.get? "id").getD .null)
    match nxt with
    | .obj o' => extractPkWalk doc rest (.obj o')
    | x => x
  | _, v => v

/-- `_extract_partition_key` (mask pipeline, lines 1071-1093). -/
def extract_partition_key (doc : Fields) (partitionKeyPath : String) : V :=
  extractPkWalk doc (splitOnChar '/' (stripChar '/' partitionKeyPath)) (.obj doc)

inductive CosmosResp where
  | ok (ru : ℚ)
  | http (status : ℕ) (retryAfterMs : Option ℚ) (msg : String)
  | exc (msg : String)
  deriving Repr, DecidableEq

structure UpsertOutcome where
  success : Bool
  error : Option String
  doc : Fields
  ruCharge : ℚ
  deriving Repr, DecidableEq

/-- The retry loop of `upsert_item_with_retry` (mask pipeline, lines
896-930): success reports to the throttle manager and returns; a 429 reports
a throttle and sleeps per `_calculate_throttle_wait_time`; 408/503/500 sleep
with plain exponential backoff; anything else is terminal. -/
def upsertAttempts (oracle : ℕ → CosmosResp) (doc : Fields) (isAutoscale : Bool)
    (jitter : ℕ → ℚ) :
    ℕ → ℕ → AdaptiveThrottleManager → List ℚ →
      UpsertOutcome × AdaptiveThrottleManager × List ℚ
  | _, 0, tm, ws => (⟨false, some "Max retries (10) exceeded", doc, 0⟩, tm, ws)
  | attempt, rem + 1, tm, ws =>
    match oracle attempt with
    | .ok ru => (⟨true, none, doc, ru⟩, report_success tm ru, ws)
    | .http status hint msg =>
      if status = 429 then
        let tm' := report_throttle tm
        let w := calculate_throttle_wait_time hint attempt isAutoscale (jitter attempt)
        if attempt < RETRY_MAX_ATTEMPTS - 1 then
          upsertAttempts oracle doc isAutoscale jitter (attempt + 1) rem tm' (ws ++ [w])
        else (⟨false, some ("HTTP 429: " ++ msg), doc, 0⟩, tm', ws)
      else if status = 408 ∨ status = 503 ∨ status = 500 then
        let w := RETRY_BASE_DELAY * BACKOFF_MULTIPLIER ^ attempt
        if attempt < RETRY_MAX_ATTEMPTS - 1 then
          upsertAttempts oracle doc isAutoscale jitter (attempt + 1) rem tm (ws ++ [w])
        else (⟨false, some ("HTTP " ++ toString status ++ ": " ++ msg), doc, 0⟩, tm, ws)
      else (⟨false, some ("HTTP " ++ toString status ++ ": " ++ msg), doc, 0⟩, tm, ws)
    | .exc msg => (⟨false, some ("Unexpected error: " ++ msg), doc, 0⟩, tm, ws)

/-- `upsert_item_with_retry`: `partitionKey` is the argument
`batch_upsert_documents` fills with `_extract_partition_key(doc, path)`;
the request issued is `container.upsert_item(body=doc)`. -/
def upsert_item_with_retry (oracle : ℕ → CosmosResp) (doc : Fields) (partitionKey : V)
    (tm : AdaptiveThrottleManager) (isAutoscale : Bool) (jitter : ℕ → ℚ) :
    UpsertOutcome × AdaptiveThrottleManager × List ℚ :=
  upsertAttempts oracle doc isAutoscale jitter 0 RETRY_MAX_ATTEMPTS tm []

/-! ## ExportPipeline: partition validation before any read or write

`setup_partition_configuration` (discovery pipeline, lines 1215-1286) and the
step order of `process_cosmos_to_adls_activity` (lines 1404-1455): parameter
validation, secret, connection checks, then partition setup — and only after
that is the streaming reader constructed and the batch loop entered.  The
environment carries what the metadata queries would return and the document
stream the reader would yield; the trace records document batch reads and
object-store file writes, and an exception anywhere makes the activity return
an error status (lines 1536-1538). -/

structure ExportEnv where
  partitionKeyPaths : List String
  discoveredValues : List V
  batches : List (List Fields)

/-- `setup_partition_configuration`: returns `(pk_path, pk_values,
user_provided_both)` or the `ValueError` message kind. -/
def setup_partition_configuration (jsonParse : String → Option V) (env : ExportEnv)
    (partitionKeyPath : Option String) (partitionKeyValues : Option V) :
    Except String (Option String × Option (List V) × Bool) :=
  let hasPkPath := partitionKeyPath.elim false (fun s => s ≠ "")
  let hasPkValues := partitionKeyValues.elim false V.truthy
  if hasPkPath ≠ hasPkValues then
    .error "Invalid partition configuration"
  else if hasPkPath then
    let pkPath := partitionKeyPath.getD ""
    let pkValues : List V :=
      match partitionKeyValues.getD .null with
      | .str s =>
        -- a string is parsed as JSON; on failure it is kept as a single value
        match jsonParse s with
        | some (.arr xs) => xs.toList
        | some v => [v]
        | none => [.str s]
      | .arr xs => xs.toList
      | v => [v]
    if pkValues = [] then .error "partition_key_value was provided but is empty"
    else if pkPath ∉ env.partitionKeyPaths then
      .error "Provided partition_key_path does not match the container's paths"
    else if pkValues.filter (fun v => v ∉ env.discoveredValues) ≠ [] then
      .error "Invalid partition_key_value(s): do not exist in container"
    else .ok (some pkPath, some pkValues, true)
  else
    match env.partitionKeyPaths with
    | p :: _ => .ok (some p, some env.discoveredValues, false)
    | [] => .ok (none, none, false)

inductive ExportEvent where
  | docBatchRead (count : ℕ)
  | fileWrite (name : String)
  deriving Repr, DecidableEq

/-- The batch loop of the activity (lines 1455-1506): each batch is read from
the source, its parent CSV is written, then one CSV per nonempty child table. -/
def exportBatchEvents (fresh : ℕ → String) (container : String)
    (docs : List Fields) : List ExportEvent :=
  let childNames := (docs.flatMap
    (fun d => ((extract_arrays_iterative_optimized fresh d).2.filter
      (fun t => !t.2.isEmpty)).map (·.1))).eraseDups
  ExportEvent.docBatchRead docs.length ::
    ExportEvent.fileWrite (container ++ ".csv") ::
    childNames.map (fun n => ExportEvent.fileWrite (n ++ ".csv"))

/-- `process_cosmos_to_adls_activity` from partition setup onward: a
`ValueError` raised by the setup is caught by the activity's outer handler
and becomes an error status with nothing read or written. -/
def process_cosmos_to_adls_activity (fresh : ℕ → String) (jsonParse : String → Option V)
    (env : ExportEnv) (container : String)
    (partitionKeyPath : Option String) (partitionKeyValues : Option V) :
    Except String Unit × List ExportEvent :=
  match setup_partition_configuration jsonParse env partitionKeyPath partitionKeyValues with
  | .error e => (.error e, [])
  | .ok _ => (.ok (), env.batches.flatMap (exportBatchEvents fresh container))

/-! ## Import side (mask pipeline): the stitcher

Python object aliasing is modelled with an explicit store
(`all_objects_by_rid`): attached children whose rid is registered are stored
as references (an object holding the single reserved key `refKey`, which can
collide with no document key) and resolved at the end by a bounded
substitution pass; all other mutation is per-object and local. -/

def firstCharIs (s : String) (c : Char) : Bool :=
  match s.data with
  | [] => false
  | x :: _ => x = c

def lastCharIs (s : String) (c : Char) : Bool :=
  match s.data.reverse with
  | [] => false
  | x :: _ => x = c

/-- `pfx.data` is a prefix of `s.data` — `s.startswith(pfx)`. -/
def listIsPfx : List Char → List Char → Bool
  | [], _ => true
  | _, [] => false
  | a :: as, b :: bs => a = b && listIsPfx as bs

def strStarts (s pfx : String) : Bool := listIsPfx pfx.data s.data

def strEnds (s sfx : String) : Bool := listIsPfx sfx.data.reverse s.data.reverse

/-- Python `str.strip()` (whitespace). -/
def pyStrip (s : String) : String :=
  String.mk (((s.data.dropWhile Char.isWhitespace).reverse.dropWhile Char.isWhitespace).reverse)

def joinWith (sep : String) : List String → String
  | [] => ""
  | [x] => x
  | x :: xs => x ++ sep ++ joinWith sep xs

/-- `s.rsplit(c, 1)[0]`. -/
def rsplitOnceDrop (c : Char) (s : String) : String :=
  match splitOnChar c s with
  | [] => s
  | [x] => x
  | xs => joinWith (String.mk [c]) xs.dropLast

def countChar (c : Char) (s : String) : ℕ := s.data.countP (· = c)

/-- `marker.replace("_has_array_", "")` on a marker column (the tag occurs
once, at the start). -/
def dropMarkerTag (s : String) : String := String.mk (s.data.drop 11)

def isMarkerKey (k : String) : Bool := strStarts k "_has_array_"

/-- `parse_json_string` (mask pipeline, lines 139-161): strings that look
like a JSON array/object are re-parsed; `jsonParse` models the
`json.loads`-then-`ast.literal_eval` attempt (`none` = both fail). -/
def parse_json_string (jsonParse : String → Option V) (value : String) : V :=
  let v := pyStrip value
  if (firstCharIs v '[' && lastCharIs v ']') || (firstCharIs v '{' && lastCharIs v '}') then
    match jsonParse v with
    | some r => r
    | none => .str value
  else .str value

/-- One path assignment of `unflatten_dict`: descend/create dicts along the
parts, overwriting non-dict intermediates with `{}`. -/
def setPathF : Fields → List String → V → Fields
  | cur, [], _ => cur
  | cur, [p], v => cur.set p v
  | cur, p :: rest, v =>
    let inner : Fields :=
      match cur.get? p with
      | some (.obj o) => o
      | _ => .nil
    cur.set p (.obj (setPathF inner rest v))

/-- `unflatten_dict` (mask pipeline, lines 164-192). -/
def unflattenGo (jsonParse : String → Option V) : Fields → Fields → Fields
  | acc, .nil => acc
  | acc, .cons k v tl =>
    let v' := match v with
      | .str s => parse_json_string jsonParse s
      | x => x
    unflattenGo jsonParse (setPathF acc (splitOnChar '.' k) v') tl

def unflatten_dict (jsonParse : String → Option V) (flat : Fields) : Fields :=
  unflattenGo jsonParse .nil flat

/-- `str(x)` of a cell that came through the CSV: a null cell reads back as
the empty string under `keep_default_na=False`. -/
def cellRidStr : Option V → String
  | some .null => ""
  | some v => v.pyStr
  | none => ""

/-- `_build_child_object` (mask pipeline, lines 382-416). -/
def build_child_object (jsonParse : String → Option V) (row : Fields) : Fields :=
  let ridV : V := match row.get? "_rid" with
    | some .null => .null
    | some v => .str v.pyStr
    | none => .null
  let pridV : V := match row.get? "_parent_rid" with
    | some .null => .null
    | some v => .str v.pyStr
    | none => .null
  let rest := row.filterKV (fun k v =>
    decide (k ≠ "_rid") && decide (k ≠ "_parent_rid") && decide (v ≠ V.null))
  let hasArrayFields := rest.filterKV (fun k _ => isMarkerKey k)
  let regularFields := rest.filterKV (fun k _ => !isMarkerKey k)
  let nested := unflatten_dict jsonParse regularFields
  ((nested.update hasArrayFields).set "_rid" ridV).set "_parent_rid" pridV

abbrev Store := List (String × Fields)

def storeGet (st : Store) (rid : String) : Option Fields :=
  match st.find? (fun p => p.1 = rid) with
  | some p => some p.2
  | none => none

/-- Dict assignment on the store (replace in place or append). -/
def storeSet : Store → String → Fields → Store
  | [], rid, o => [(rid, o)]
  | (r, o') :: tl, rid, o =>
      if r = rid then (r, o) :: tl else (r, o') :: storeSet tl rid o

/-- The `_parent_rid` cell after `astype(str)` on a CSV chunk (a missing or
null cell is the empty string under `keep_default_na=False`). -/
def parentRidStr (row : Fields) : String := cellRidStr (row.get? "_parent_rid")

structure CsvInfo where
  fullPath : String
  arrName : String
  depth : ℕ
  deriving Repr, DecidableEq

/-- `_organize_csv_paths_by_depth` (mask pipeline, lines 1219-1263),
flattened: the infos are produced in sorted-path order carrying their depth,
which is exactly the per-depth insertion order of the Python dict. -/
def organize_csv_paths_by_depth (csvPaths : List String) (exportDir container : String) :
    List CsvInfo :=
  (sortStrings csvPaths).filterMap (fun fullPath =>
    if strEnds fullPath ("/" ++ container ++ ".csv") then none
    else
      let parts := (splitOnChar '/' fullPath).filter (fun s => s ≠ "")
      let rel :=
        if strStarts fullPath exportDir then
          parts.drop (splitOnChar '/' exportDir).length
        else parts
      match rel with
      | [] => none
      | _ =>
        let arrDirs := rel.dropLast
        let arrName :=
          if arrDirs ≠ [] then joinWith "." arrDirs
          else rsplitOnceDrop '.' (rel.getLastD "")
        some ⟨fullPath, arrName, countChar '.' arrName⟩)

def rbdGet (m : List (ℕ × List String)) (d : ℕ) : List String :=
  match m.find? (fun p => p.1 = d) with
  | some p => p.2
  | none => []

def rbdAddAll (m : List (ℕ × List String)) (d : ℕ) (rids : List String) :
    List (ℕ × List String) :=
  match m with
  | [] => [(d, rids)]
  | (d', rs) :: tl => if d' = d then (d', rs ++ rids) :: tl else (d', rs) :: rbdAddAll tl d rids

/-- The suffix candidates `[".".join(arr_parts[i:]) for i in range(...)]`. -/
def suffixCandidates (arrName : String) : List String :=
  let parts := splitOnChar '.' arrName
  (List.range parts.length).map (fun i => joinWith "." (parts.drop i))

/-- `_determine_filter_rids` (mask pipeline, lines 1266-1313). -/
def determine_filter_rids (arrName : String) (currentDepth : ℕ)
    (parentRids : List String) (ridsByDepth : List (ℕ × List String))
    (store : Store) : List String :=
  let fromMarkers : Option (List String) :=
    (suffixCandidates arrName).foldl (fun acc sfx =>
      match acc with
      | some r => some r
      | none =>
        let markerKey := "_has_array_" ++ sfx
        let ridsWithMarker := (store.filter (fun p => p.2.hasKey markerKey)).map (·.1)
        if ridsWithMarker ≠ [] then
          if currentDepth = 0 then
            let valid := ridsWithMarker.filter (fun r => parentRids.contains r)
            if valid ≠ [] then some valid else none
          else
            let valid := (List.range (currentDepth + 1)).flatMap (fun d =>
              ridsWithMarker.filter (fun r => (rbdGet ridsByDepth d).contains r))
            if valid ≠ [] then some valid else none
        else none) none
  match fromMarkers with
  | some r => r
  | none =>
    if currentDepth = 0 then parentRids
    else
      -- `for d in range(current_depth, -1, -1): if rids_by_depth[d]: return it`
      match (List.range (currentDepth + 1)).reverse.find?
          (fun d => rbdGet ridsByDepth d ≠ []) with
      | some d => rbdGet ridsByDepth d
      | none => []

/-- `_record_array_markers` (mask pipeline, lines 1316-1334):
`array_name → rids` in first-appearance order. -/
def awmAdd (m : List (String × List String)) (name rid : String) :
    List (String × List String) :=
  match m with
  | [] => [(name, [rid])]
  | (n, rs) :: tl => if n = name then (n, rs ++ [rid]) :: tl else (n, rs) :: awmAdd tl name rid

def record_array_markers (store : Store) : List (String × List String) :=
  store.foldl (fun m p =>
    (p.2.keys.filter isMarkerKey).foldl (fun m' marker =>
      awmAdd m' (dropMarkerTag marker) p.1) m) []

/-- Navigation of `_initialize_arrays_from_markers` for one marker: create
`{}` along the path, stop silently at a non-dict, seed `[]` at the final key
when absent. -/
def initArrayAt : Fields → List String → Fields
  | o, [] => o
  | o, [last] => if o.hasKey last then o else o.set last (.arr .nil)
  | o, p :: rest =>
    match o.get? p with
    | none => o.set p (.obj (initArrayAt .nil rest))
    | some (.obj inner) => o.set p (.obj (initArrayAt inner rest))
    | some _ => o

/-- `_initialize_arrays_from_markers` on one object: each marker seeds its
array (when navigable) and is deleted afterwards in either case. -/
def initObjArrays (o : Fields) : Fields :=
  (o.keys.filter isMarkerKey).foldl
    (fun o' marker =>
      (initArrayAt o' (splitOnChar '.' (dropMarkerTag marker))).erase marker) o

/-- `_initialize_arrays_from_markers` (mask pipeline, lines 1337-1378). -/
def initialize_arrays_from_markers (store : Store) : Store :=
  store.map (fun p => (p.1, initObjArrays p.2))

/-- The reserved reference key: a Python dict attached into a parent array
stays aliased with its `all_objects_by_rid` entry; the model stores the
entry under its rid and puts this reference marker in the array. -/
def refKey : String := "\u0000ref"

def mkRef (rid : String) : V := .obj (.cons refKey (.str rid) .nil)

def refRid? : Fields → Option String
  | .cons k (.str rid) .nil => if k = refKey then some rid else none
  | _ => none

/-- Follow a table-list entry to the live object: a registered child is an
alias of its `all_objects_by_rid` entry (a reference here), an unregistered
one is the inline object itself. -/
def derefChild (store : Store) : V → Fields
  | .obj o =>
    (match refRid? o with
     | some rid => (storeGet store rid).getD .nil
     | none => o)
  | _ => .nil

/-- `process_child_csv_streaming` (mask pipeline, lines 291-379) on one
table (the whole table is one chunk; pandas reads the union of columns, so
the `_parent_rid` column exists iff some row carries it).  Returns the kept
row count, the collected child rids, the updated store and the child objects
appended for this table (registered children as references — the Python
lists hold the same dicts as `all_objects_by_rid`). -/
def processKeptRows (jsonParse : String → Option V) :
    List Fields → Store → ℕ × List String × Store × List V
  | [], store => (0, [], store, [])
  | row :: tl, store =>
    let obj := build_child_object jsonParse row
    let ridV := (obj.get? "_rid").getD .null
    let (store', crids', entry) :=
      if ridV.truthy then (storeSet store ridV.pyStr obj, [ridV.pyStr], mkRef ridV.pyStr)
      else (store, [], V.obj obj)
    let (cnt, crids, storeF, objs) := processKeptRows jsonParse tl store'
    (cnt + 1, crids' ++ crids, storeF, entry :: objs)

def process_child_csv_streaming (jsonParse : String → Option V) (rows : List Fields)
    (filterRids : List String) (store : Store) :
    ℕ × List String × Store × List V :=
  if rows.any (fun r => r.hasKey "_parent_rid") then
    processKeptRows jsonParse (rows.filter (fun r => filterRids.contains (parentRidStr r))) store
  else (0, [], store, [])

mutual

/-- One substitution pass replacing references by their current store entry
(not recursing into the substituted entry; iterated by `materialize`). -/
def resolveOnceV (store : Store) : V → V
  | .obj o =>
    (match refRid? o with
     | some rid =>
       match storeGet store rid with
       | some fs => .obj fs
       | none => .obj .nil
     | none => .obj (resolveOnceF store o))
  | .arr xs => .arr (resolveOnceL store xs)
  | x => x

def resolveOnceL (store : Store) : VList → VList
  | .nil => .nil
  | .cons v tl => .cons (resolveOnceV store v) (resolveOnceL store tl)

def resolveOnceF (store : Store) : Fields → Fields
  | .nil => .nil
  | .cons k v tl => .cons k (resolveOnceV store v) (resolveOnceF store tl)

end

/-- Resolve all references (the reference graph is acyclic — children are
attached strictly deeper — so enough passes reach a fixed point). -/
def materialize (store : Store) : ℕ → V → V
  | 0, v => v
  | fuel + 1, v => materialize store fuel (resolveOnceV store v)

/-- `_clean_child_objects` on one child (mask pipeline, lines 1436-1441). -/
def cleanChildFields (c : Fields) : Fields :=
  c.filterKV (fun k _ =>
    decide (k ≠ "_rid") && decide (k ≠ "_parent_rid") && !isMarkerKey k)

/-- `_add_children_to_array`'s navigation (mask pipeline, lines 1482-1511):
descend/create dicts along the path (returning unchanged at a non-dict),
then extend the array at the final key (replacing a non-list value). -/
def addChildrenAt : Fields → List String → List V → Fields
  | o, [], _ => o
  | o, [last], kids =>
    (match o.get? last with
     | some (.arr xs) => o.set last (.arr (xs.append (VList.ofList kids)))
     | some (.obj inner) => o.set last (.arr (VList.ofList kids))
     | some .null => o.set last (.arr (VList.ofList kids))
     | some (.bool b) => o.set last (.arr (VList.ofList kids))
     | some (.num q) => o.set last (.arr (VList.ofList kids))
     | some (.str s) => o.set last (.arr (VList.ofList kids))
     | none => o.set last (.arr (VList.ofList kids)))
  | o, p :: rest, kids =>
    match o.get? p with
    | none => o.set p (.obj (addChildrenAt .nil rest kids))
    | some (.obj inner) => o.set p (.obj (addChildrenAt inner rest kids))
    | some _ => o

/-- Marker matching of `_add_children_to_array` (lines 1465-1480): the
parent's own entry for `arr_name`, else the *first* of the parent's markers
that `arr_name` string-ends with. -/
def actualMarkerName (arraysWithMarkers : List (String × List String))
    (arrName parentRid : String) : Option String :=
  match (arraysWithMarkers.find? (fun p => p.1 = arrName)).filter
      (fun p => p.2.contains parentRid) with
  | some _ => some arrName
  | none =>
    let parentMarkers := (arraysWithMarkers.filter (fun p => p.2.contains parentRid)).map (·.1)
    parentMarkers.find? (fun m => strEnds arrName m)

def add_children_to_array (parentObj : Fields) (arrName : String)
    (cleanChildren : List V) (parentRid : String)
    (arraysWithMarkers : List (String × List String)) : Fields :=
  match actualMarkerName arraysWithMarkers arrName parentRid with
  | some actual => addChildrenAt parentObj (splitOnChar '.' actual) cleanChildren
  | none =>
    let last := (splitOnChar '.' arrName).getLastD arrName
    addChildrenAt parentObj [last] cleanChildren

def groupAdd (g : List (String × List V)) (prid : String) (obj : V) :
    List (String × List V) :=
  match g with
  | [] => [(prid, [obj])]
  | (p, os) :: tl => if p = prid then (p, os ++ [obj]) :: tl else (p, os) :: groupAdd tl prid obj

/-- `str(obj.get("_parent_rid", ""))` / `str(child.get("_rid", ""))`:
a missing key gives the empty string, a `None` value the string `"None"`. -/
def objRidStr (o : Fields) (k : String) : String :=
  match o.get? k with
  | some v => v.pyStr
  | none => ""

/-- Grouping step of `_assign_children_to_parents` (lines 1402-1410): rows
with an empty or `"None"` parent rid are skipped. -/
def groupByParentRid (store : Store) (objs : List V) : List (String × List V) :=
  objs.foldl (fun g obj =>
    let prid := objRidStr (derefChild store obj) "_parent_rid"
    if prid = "" ∨ prid = "None" then g else groupAdd g prid obj) []

def insertByNat {α : Type} (key : α → ℕ) (a : α) : List α → List α
  | [] => [a]
  | b :: l => if key a ≤ key b then a :: b :: l else b :: insertByNat key a l

/-- Stable ascending sort by a `ℕ` key — Python's stable `sorted`. -/
def sortByNat {α : Type} (key : α → ℕ) : List α → List α
  | [] => []
  | a :: l => insertByNat key a (sortByNat key l)

/-- `_assign_children_to_parents` (mask pipeline, lines 1381-1419) together
with `_clean_child_objects`: children are cleaned, aliased store entries are
overwritten with the cleaned object (modelled by a reference in the array),
and the group is attached into its parent's array. -/
def assign_children_to_parents (childTables : List (String × List V))
    (store : Store) (awm : List (String × List String)) : Store :=
  (sortByNat (fun p => countChar '.' p.1) childTables).foldl
    (fun st tb =>
      if tb.2 = [] then st
      else
        (groupByParentRid st tb.2).foldl (fun st' grp =>
          match storeGet st' grp.1 with
          | none => st'
          | some parentObj =>
            let st'' := grp.2.foldl (fun s c =>
              let cf := derefChild st' c
              let crid := objRidStr cf "_rid"
              if crid ≠ "" ∧ (storeGet st' crid).isSome then
                storeSet s crid (cleanChildFields cf)
              else s) st'
            let kidVals := grp.2.map (fun c =>
              let cf := derefChild st' c
              let crid := objRidStr cf "_rid"
              if crid ≠ "" ∧ (storeGet st' crid).isSome then mkRef crid
              else .obj (cleanChildFields cf))
            let parent' := add_children_to_array parentObj tb.1 kidVals grp.1 awm
            storeSet st'' grp.1 parent') st)
    store

mutual

/-- `clean_recursive` inside `_clean_documents` (lines 1524-1531). -/
def cleanRecV : V → V
  | .obj fs => .obj (cleanRecF fs)
  | .arr xs => .arr (cleanRecL xs)
  | x => x

def cleanRecL : VList → VList
  | .nil => .nil
  | .cons v tl => .cons (cleanRecV v) (cleanRecL tl)

def cleanRecF : Fields → Fields
  | .nil => .nil
  | .cons k v tl =>
    if k ≠ "_rid" ∧ k ≠ "_parent_rid" ∧ isMarkerKey k = false then
      .cons k (cleanRecV v) (cleanRecF tl)
    else cleanRecF tl

end

def fieldsMapKV (f : String → V → V) : Fields → Fields
  | .nil => .nil
  | .cons k v tl => .cons k (f k v) (fieldsMapKV f tl)

/-- `_clean_documents` on one document (lines 1533-1539): values of
non-system keys are cleaned recursively, then `_rid`/`_parent_rid` are
popped; top-level `_has_array_*` keys are left untouched (by this point the
markers of store-registered objects were already deleted). -/
def clean_document (doc : Fields) : Fields :=
  ((fieldsMapKV (fun k v =>
      if k ≠ "_rid" ∧ k ≠ "_parent_rid" ∧ isMarkerKey k = false then cleanRecV v else v)
    doc).erase "_rid").erase "_parent_rid"

def isSystemField (k : String) : Bool :=
  k = "_rid" || k = "_self" || k = "_etag" || k = "_attachments" || k = "_ts"

mutual

/-- `strip_system_fields` (mask pipeline, lines 85-102). -/
def stripSysV : V → V
  | .obj fs => .obj (stripSysF fs)
  | .arr xs => .arr (stripSysL xs)
  | x => x

def stripSysL : VList → VList
  | .nil => .nil
  | .cons v tl => .cons (stripSysV v) (stripSysL tl)

def stripSysF : Fields → Fields
  | .nil => .nil
  | .cons k v tl =>
    if isSystemField k then stripSysF tl else .cons k (stripSysV v) (stripSysF tl)

end

mutual

/-- `cosmos_safe` (mask pipeline, lines 105-136): on this value model (keys
are strings, no numpy scalars, no NaN) it is the identity traversal. -/
def cosmosSafeV : V → V
  | .obj fs => .obj (cosmosSafeF fs)
  | .arr xs => .arr (cosmosSafeL xs)
  | x => x

def cosmosSafeL : VList → VList
  | .nil => .nil
  | .cons v tl => .cons (cosmosSafeV v) (cosmosSafeL tl)

def cosmosSafeF : Fields → Fields
  | .nil => .nil
  | .cons k v tl => .cons k (cosmosSafeV v) (cosmosSafeF tl)

end

/-- `_prepare_batch_parents` (mask pipeline, lines 1890-1917): each parent
row is unflattened, keeping the `_has_array_*` markers flat. -/
def prepare_batch_parents (jsonParse : String → Option V) (parentRows : List Fields) :
    List Fields :=
  parentRows.map (fun p =>
    let hasArrayFields := p.filterKV (fun k _ => isMarkerKey k)
    let regularFields := p.filterKV (fun k _ =>
      decide (k ≠ "_parent_rid") && !isMarkerKey k)
    (unflatten_dict jsonParse regularFields).update hasArrayFields)

/-- `process_batch` (mask pipeline, lines 1096-1196): index parents by rid,
stream the child CSVs level by level, seed arrays from markers, attach
children, clean, strip and coerce.  `tablesOf` maps a CSV path to its rows;
`fuel` bounds the reference-resolution depth. -/
def process_batch (jsonParse : String → Option V) (fuel : ℕ)
    (batchParents : List Fields) (csvPaths : List String)
    (tablesOf : String → List Fields) (exportDir container : String) :
    List V × ℕ :=
  let ridToParent : Store := batchParents.foldl (fun m p =>
    match p.get? "_rid" with
    | some v => if v.truthy then storeSet m v.pyStr p else m
    | none => m) []
  let parentRids := ridToParent.map (·.1)
  let infos := organize_csv_paths_by_depth csvPaths exportDir container
  let depths := if infos = [] then [] else List.range ((infos.map (·.depth)).foldl max 0 + 1)
  let stF := depths.foldl
    (fun (st : Store × List (ℕ × List String) × List (String × List V) × ℕ) d =>
      (infos.filter (fun i => i.depth = d)).foldl (fun st2 info =>
        let fr := determine_filter_rids info.arrName d parentRids st2.2.1 st2.1
        if fr = [] then st2
        else
          let r := process_child_csv_streaming jsonParse (tablesOf info.fullPath) fr st2.1
          (r.2.2.1, rbdAddAll st2.2.1 (d + 1) r.2.1,
            (match st2.2.2.1.find? (fun t => t.1 = info.arrName) with
             | some _ => st2.2.2.1.map (fun t =>
                 if t.1 = info.arrName then (t.1, t.2 ++ r.2.2.2) else t)
             | none => st2.2.2.1 ++ [(info.arrName, r.2.2.2)]),
            st2.2.2.2 + r.1)) st)
    (ridToParent, [(0, parentRids)], ([] : List (String × List V)), 0)
  let awm := record_array_markers stF.1
  let storeB := initialize_arrays_from_markers stF.1
  let storeC := assign_children_to_parents stF.2.2.1 storeB awm
  let docs := batchParents.map (fun p =>
    let base : V :=
      match p.get? "_rid" with
      | some v =>
        if v.truthy then
          match storeGet storeC v.pyStr with
          | some fs => .obj fs
          | none => .obj p
        else .obj p
      | none => .obj p
    let m := materialize storeC fuel base
    let cleaned : V :=
      match m with
      | .obj fs => .obj (clean_document fs)
      | x => x
    cosmosSafeV (stripSysV cleaned))
  (docs, stF.2.2.2)

/-- The ObjectStore path of a child table, as `upload_child_tables`
(discovery pipeline, lines 1344-1362) writes it:
`<exportDir>/<segments…>/<lastSegment>.csv`. -/
def childTablePath (exportDir : String) (arrName : String) : String :=
  let parts := splitOnChar '.' arrName
  exportDir ++ "/" ++ joinWith "/" parts ++ "/" ++ parts.getLastD arrName ++ ".csv"

/-- Stitch a parent-row batch with its child tables: the file listing and
per-path lookup the import pipeline would see for tables exported by the
discovery pipeline (the CSV byte layer is the identity on this model and is
verified separately in C4). -/
def stitch_tables (jsonParse : String → Option V) (fuel : ℕ)
    (exportDir container : String) (parentRows : List Fields)
    (tables : List (String × List Fields)) : List V × ℕ :=
  let csvPaths := (exportDir ++ "/" ++ container ++ ".csv") ::
    tables.map (fun t => childTablePath exportDir t.1)
  let tablesOf := fun path =>
    match tables.find? (fun t => childTablePath exportDir t.1 = path) with
    | some t => t.2
    | none => []
  process_batch jsonParse fuel (prepare_batch_parents jsonParse parentRows)
    csvPaths tablesOf exportDir container

/-- `Stitch(Shred(d))` for a single document. -/
def shred_then_stitch (fresh : ℕ → String) (jsonParse : String → Option V)
    (fuel : ℕ) (exportDir container : String) (doc : Fields) : List V :=
  let r := extract_arrays_iterative_optimized fresh doc
  (stitch_tables jsonParse fuel exportDir container [r.1] r.2).1

/-! ## Claim C1: the round-trip law -/

/-- A plain document with sibling object-arrays `b` and `ab` inside the
array `a` — no mixed arrays, no dotted keys, no system fields:
`{"id":"D","a":[{"b":[{"x":1}],"ab":[{"y":2}]}]}`. -/
def docSuffixConfusion : Fields :=
  .cons "id" (.str "D")
    (.cons "a" (.arr (.cons (.obj
      (.cons "b" (.arr (.cons (.obj (.cons "x" (.num 1) .nil)) .nil))
        (.cons "ab" (.arr (.cons (.obj (.cons "y" (.num 2) .nil)) .nil)) .nil))) .nil)) .nil)

/-- The two-row table of the C6 witness: one resolvable child and one whose
`_parent_rid` resolves to no parent. -/
def c6Rows : List Fields :=
  [Fields.cons "_rid" (.str "r1") (.cons "_parent_rid" (.str "r0")
     (.cons "sku" (.num 1) .nil)),
   Fields.cons "_rid" (.str "r2") (.cons "_parent_rid" (.str "zz")
     (.cons "sku" (.num 2) .nil))]

example : (Fields.nil.set "a" (.num 1)).set "a" (.num 2) = .cons "a" (.num 2) .nil := by
  decide

example :
    ((Fields.nil.set "a" (.num 1)).set "b" (.num 2)).update
        (Fields.nil.set "a" (.num 3)) =
      (Fields.nil.set "a" (.num 3)).set "b" (.num 2) := by
  decide

example :
    extract_arrays_iterative_optimized ridSupply
        (.cons "id" (.str "A")
          (.cons "items"
            (.arr (.cons (.obj (.cons "sku" (.num 1) .nil))
              (.cons (.obj (.cons "sku" (.num 2) .nil)) .nil))) .nil)) =
      (.cons "id" (.str "A")
        (.cons "_has_array_items" (.bool true)
          (.cons "_rid" (.str "r0") .nil)),
       [("items",
         [.cons "_rid" (.str "r1")
            (.cons "_parent_rid" (.str "r0") (.cons "sku" (.num 1) .nil)),
          .cons "_rid" (.str "r2")
            (.cons "_parent_rid" (.str "r0") (.cons "sku" (.num 2) .nil))])]) := by
  decide

/-- C2 (counterexample): exporting `{"id":"B","tags":[]}` does *not* keep the
cell `tags=[]` with no marker.  The guard at line 752 of the discovery
pipeline (`if primitive_items and not dict_items`) is false for an empty
array, so the code falls through to the marker branch. -/
theorem c2_counterexample :
    ¬ (((extract_arrays_iterative_optimized ridSupply docEmptyTags).1.get? "tags" =
          some (.arr .nil)) ∧
       ((extract_arrays_iterative_optimized ridSupply docEmptyTags).1.get?
          "_has_array_tags" = none)) := by
  decide

/-- C2 (amended): exporting `{"id":"B","tags":[]}` produces a parent row with
the marker `_has_array_tags = True` and *no* `tags` cell, and no child rows:
the empty array is represented by the marker alone (the data-model invariant
of §3), and the round trip restores `tags = []` from the marker. -/
theorem c2_empty_array_yields_marker :
    extract_arrays_iterative_optimized ridSupply docEmptyTags =
      (.cons "id" (.str "B")
        (.cons "_has_array_tags" (.bool true) (.cons "_rid" (.str "r0") .nil)),
       []) := by
  decide

/-- C4: writing a first batch with columns `{id, x}` and then, in append
mode, a second batch with columns `{id, y}` performs the read–merge–rewrite
of lines 933-983: the resulting file has exactly one header record, the
sorted union `id|x|y`, every batch-1 row gets a null (empty) `y` cell and
every batch-2 row a null (empty) `x` cell, and the known-column set becomes
`{id, x, y}`.  Batches are nonempty lists of `(id, other)` cell pairs. -/
theorem c4_schema_drift_read_merge_rewrite
    (rows1 rows2 : List (Option String × Option String))
    (h1 : rows1 ≠ []) (h2 : rows2 ≠ []) :
    (upload_csv_to_adls
        (upload_csv_to_adls none ["id", "x"] (rows1.map fun p => [p.1, p.2]) .write none).1
        ["id", "y"] (rows2.map fun p => [p.1, p.2]) .append
        (some (upload_csv_to_adls none ["id", "x"] (rows1.map fun p => [p.1, p.2]) .write none).2)) =
      (some ([["id", "x", "y"]] ++
          rows1.map (fun p => [serialize_cell p.1, serialize_cell p.2, ""]) ++
          rows2.map (fun p => [serialize_cell p.1, "", serialize_cell p.2])),
       ["id", "x", "y"]) := by
  have hm1 : rows1.map (fun p => [p.1, p.2]) ≠ ([] : List (List (Option String))) := by
    simpa using h1
  have hm2 : rows2.map (fun p => [p.1, p.2]) ≠ ([] : List (List (Option String))) := by
    simpa using h2
  simp only [upload_csv_to_adls, if_neg hm1, if_neg hm2]
  simp [reorderRow, sortStrings, insertSorted, strLe, charsLe, unionList, serialize_cell,
    List.map_map]
  refine congrArg₂ (· ++ ·) ?_ ?_ <;> exact List.map_congr_left fun p _ => rfl

/-- C4 witness: the schema-drift theorem applied to the one-row batches
`{id: 1, x: vx}` and `{id: 2, y: vy}`. -/
theorem c4_schema_drift_witness :
    (upload_csv_to_adls
        (upload_csv_to_adls none ["id", "x"]
          ([((some "1" : Option String), (some "vx" : Option String))].map fun p => [p.1, p.2])
          .write none).1
        ["id", "y"]
        ([((some "2" : Option String), (some "vy" : Option String))].map fun p => [p.1, p.2])
        .append
        (some (upload_csv_to_adls none ["id", "x"]
          ([((some "1" : Option String), (some "vx" : Option String))].map fun p => [p.1, p.2])
          .write none).2)) =
      (some ([["id", "x", "y"]] ++
          [((some "1" : Option String), (some "vx" : Option String))].map
            (fun p => [serialize_cell p.1, serialize_cell p.2, ""]) ++
          [((some "2" : Option String), (some "vy" : Option String))].map
            (fun p => [serialize_cell p.1, "", serialize_cell p.2])),
       ["id", "x", "y"]) :=
  c4_schema_drift_read_merge_rewrite _ _ (by decide) (by decide)

/-- C7: for every bucket state (with a positive capacity, a clock not behind
`lastRefill`, and tokens within capacity, as every reachable state has) and
every cost ≥ 0, `consume` first refills by elapsed × capacity capped at
capacity; if the refilled tokens are below the cost it blocks for exactly
`(cost − tokens) / capacity` seconds and refills again (to `min capacity
cost`); then tokens decrease by the cost, the total consumed increases by the
cost, and the operation count increases by one. -/
theorem c7_token_bucket_consume (b : TokenBucketRUManager) (now cost : ℚ)
    (hcost : 0 ≤ cost) (hclock : b.lastRefill ≤ now)
    (hcap : 0 < b.maxRusPerSecond) (htok : b.tokens ≤ b.maxRusPerSecond) :
    (b.consume now cost).2 =
      (if min b.maxRusPerSecond (b.tokens + (now - b.lastRefill) * b.maxRusPerSecond) < cost
       then (cost - min b.maxRusPerSecond (b.tokens + (now - b.lastRefill) * b.maxRusPerSecond)) /
          b.maxRusPerSecond
       else 0) ∧
    (b.consume now cost).1.tokens =
      (if min b.maxRusPerSecond (b.tokens + (now - b.lastRefill) * b.maxRusPerSecond) < cost
       then min b.maxRusPerSecond cost
       else min b.maxRusPerSecond (b.tokens + (now - b.lastRefill) * b.maxRusPerSecond)) - cost ∧
    (b.consume now cost).1.totalConsumed = b.totalConsumed + cost ∧
    (b.consume now cost).1.operationsCount = b.operationsCount + 1 := by
  have hrefill : refill_tokens b now =
      { b with
          tokens := min b.maxRusPerSecond (b.tokens + (now - b.lastRefill) * b.maxRusPerSecond),
          lastRefill := now } := by
    rw [refill_tokens]
    rcases lt_or_eq_of_le hclock with hlt | heq
    · rw [if_pos (by linarith)]
    · rw [if_neg (by rw [← heq]; simp)]
      rw [← heq]
      simp [min_eq_right htok]
  set refilled := min b.maxRusPerSecond (b.tokens + (now - b.lastRefill) * b.maxRusPerSecond)
    with hrdef
  have hrle : refilled ≤ b.maxRusPerSecond := min_le_left _ _
  rw [TokenBucketRUManager.consume, hrefill]
  by_cases hblock : refilled < cost
  · have hw : 0 < (cost - refilled) / b.maxRusPerSecond := div_pos (by linarith) hcap
    have hmul : (cost - refilled) / b.maxRusPerSecond * b.maxRusPerSecond = cost - refilled :=
      div_mul_cancel₀ _ (ne_of_gt hcap)
    simp only [if_pos hblock]
    rw [refill_tokens]
    have h2 : now + (cost - refilled) / b.maxRusPerSecond - now =
        (cost - refilled) / b.maxRusPerSecond := by ring
    rw [if_pos (by rw [h2]; exact hw)]
    simp only [h2, hmul]
    have h3 : refilled + (cost - refilled) = cost := by ring
    simp [h3]
  · simp [if_neg hblock]

/-- C7 witness: a bucket of capacity 10 holding 4 tokens consuming cost 8 at
its own refill instant blocks for (8 − 4)/10 seconds and ends with
min 10 8 − 8 = 0 tokens. -/
theorem c7_token_bucket_witness :
    ((0 : ℚ) ≤ 8) ∧
    ((⟨10, 4, 0, 0, 0⟩ : TokenBucketRUManager).lastRefill ≤ 0) ∧
    (0 < (⟨10, 4, 0, 0, 0⟩ : TokenBucketRUManager).maxRusPerSecond) ∧
    ((⟨10, 4, 0, 0, 0⟩ : TokenBucketRUManager).tokens ≤
      (⟨10, 4, 0, 0, 0⟩ : TokenBucketRUManager).maxRusPerSecond) ∧
    (((⟨10, 4, 0, 0, 0⟩ : TokenBucketRUManager).consume 0 8).2 =
      (if min (⟨10, 4, 0, 0, 0⟩ : TokenBucketRUManager).maxRusPerSecond
            ((⟨10, 4, 0, 0, 0⟩ : TokenBucketRUManager).tokens +
              (0 - (⟨10, 4, 0, 0, 0⟩ : TokenBucketRUManager).lastRefill) *
                (⟨10, 4, 0, 0, 0⟩ : TokenBucketRUManager).maxRusPerSecond) < 8
       then (8 - min (⟨10, 4, 0, 0, 0⟩ : TokenBucketRUManager).maxRusPerSecond
            ((⟨10, 4, 0, 0, 0⟩ : TokenBucketRUManager).tokens +
              (0 - (⟨10, 4, 0, 0, 0⟩ : TokenBucketRUManager).lastRefill) *
                (⟨10, 4, 0, 0, 0⟩ : TokenBucketRUManager).maxRusPerSecond)) /
          (⟨10, 4, 0, 0, 0⟩ : TokenBucketRUManager).maxRusPerSecond
       else 0) ∧
     (((⟨10, 4, 0, 0, 0⟩ : TokenBucketRUManager).consume 0 8).1.tokens =
      (if min (⟨10, 4, 0, 0, 0⟩ : TokenBucketRUManager).maxRusPerSecond
            ((⟨10, 4, 0, 0, 0⟩ : TokenBucketRUManager).tokens +
              (0 - (⟨10, 4, 0, 0, 0⟩ : TokenBucketRUManager).lastRefill) *
                (⟨10, 4, 0, 0, 0⟩ : TokenBucketRUManager).maxRusPerSecond) < 8
       then min (⟨10, 4, 0, 0, 0⟩ : TokenBucketRUManager).maxRusPerSecond 8
       else min (⟨10, 4, 0, 0, 0⟩ : TokenBucketRUManager).maxRusPerSecond
            ((⟨10, 4, 0, 0, 0⟩ : TokenBucketRUManager).tokens +
              (0 - (⟨10, 4, 0, 0, 0⟩ : TokenBucketRUManager).lastRefill) *
                (⟨10, 4, 0, 0, 0⟩ : TokenBucketRUManager).maxRusPerSecond)) - 8) ∧
     (((⟨10, 4, 0, 0, 0⟩ : TokenBucketRUManager).consume 0 8).1.totalConsumed =
        (⟨10, 4, 0, 0, 0⟩ : TokenBucketRUManager).totalConsumed + 8) ∧
     (((⟨10, 4, 0, 0, 0⟩ : TokenBucketRUManager).consume 0 8).1.operationsCount =
        (⟨10, 4, 0, 0, 0⟩ : TokenBucketRUManager).operationsCount + 1)) :=
  ⟨by norm_num, by norm_num, by norm_num, by norm_num,
   c7_token_bucket_consume ⟨10, 4, 0, 0, 0⟩ 0 8 (by norm_num) (by norm_num)
     (by norm_num) (by norm_num)⟩

/-- C3 (counterexample): in the import pipeline under autoscale, a 429 with
hint `x-ms-retry-after-ms = 1000` waits `1000/1000 × 0.5 = 0.5` seconds
before jitter, not the claimed `1000/1000 = 1` second
(`_calculate_throttle_wait_time`, line 975 halves the hint). -/
theorem c3_counterexample :
    throttle_wait_base (some 1000) 0 true ≠ 1000 / 1000 := by
  norm_num [throttle_wait_base]

/-- C3 (amended): the server hint overrides the exponential backoff, but its
use is mode-dependent: the export retry waits `hint/1000` (a hint of 0 ms is
falsy in `retry_after if retry_after else backoff` and falls back to the
backoff), the import upsert retry waits `hint/1000` in manual mode and
`hint/1000 × 0.5` in autoscale mode — all before jitter. -/
theorem c3_server_hint_override (h : ℚ) (attempt : ℕ) (hne : h ≠ 0) :
    execute_with_retry_wait true (some h) attempt = h / 1000 ∧
    throttle_wait_base (some h) attempt false = h / 1000 ∧
    throttle_wait_base (some h) attempt true = h / 1000 * (1 / 2) := by
  refine ⟨?_, rfl, rfl⟩
  simp [execute_with_retry_wait, extract_retry_after, div_eq_zero_iff, hne]

/-- C3 witness: the amended statement at hint 1000 ms, attempt 0. -/
theorem c3_server_hint_witness :
    ((1000 : ℚ) ≠ 0) ∧
    (execute_with_retry_wait true (some 1000) 0 = 1000 / 1000 ∧
     throttle_wait_base (some 1000) 0 false = 1000 / 1000 ∧
     throttle_wait_base (some 1000) 0 true = 1000 / 1000 * (1 / 2)) :=
  ⟨by norm_num, c3_server_hint_override 1000 0 (by norm_num)⟩

set_option maxHeartbeats 2000000 in
/-- C8: one-step characterization of the aggressive (autoscale) policy, for
any autoscale manager state (`throttleTolerance = 5` as `__init__` sets for
autoscale).  A success report multiplies the batch size by 1.5 (integer
floor, capped at the maximum) once 20 consecutive successes accumulate
during the warmup window, and by 1.1 every 30 once warmup has ended; a
throttle report after 5 consecutive throttles cuts it to ×0.8 while still in
warmup, ×0.5 when the saturation flag (set after more than 200 operations
without a throttle) is up and more than 3 throttles have hit at max, and
×0.6 otherwise — floored at the minimum batch size. -/
theorem c8_aggressive_policy (s : AdaptiveThrottleManager) (ru : ℚ)
    (hauto : s.isAutoscale = true) (htol : s.throttleTolerance = 5) :
    (report_success s ru).currentBatchSize =
      (if s.autoscaleWarmupPeriod then
        if s.consecutiveSuccesses + 1 ≥ 20 ∧ s.currentBatchSize < s.maxBatchSize then
          min (s.currentBatchSize * 3 / 2) s.maxBatchSize
        else s.currentBatchSize
       else
        if s.consecutiveSuccesses + 1 ≥ 30 ∧ s.currentBatchSize < s.maxBatchSize then
          min (s.currentBatchSize * 11 / 10) s.maxBatchSize
        else s.currentBatchSize) ∧
    (report_throttle s).currentBatchSize =
      (if s.consecutiveThrottles + 1 ≥ 5 then
        if s.autoscaleMaxReached ∧ s.highThrottleCountAtMax + 1 > 3 then
          max (s.currentBatchSize / 2) s.minBatchSize
        else if s.autoscaleWarmupPeriod then
          max (s.currentBatchSize * 4 / 5) s.minBatchSize
        else
          max (s.currentBatchSize * 3 / 5) s.minBatchSize
       else s.currentBatchSize) := by
  obtain ⟨auto, cur, minB, maxB, mc, cs, ct, tt, trc, tops, avg, warm, ops, maxR, high, tol⟩ := s
  dsimp only at hauto htol
  subst hauto htol
  constructor
  · simp only [report_success, scale_up_if_needed]
    rcases lt_or_le 0 ru with hru | hru
    · rw [if_pos hru]
      cases warm <;> (try dsimp only) <;> split_ifs <;>
        first | rfl | omega | simp_all | (simp_all; omega)
    · rw [if_neg (not_lt.mpr hru)]
      cases warm <;> (try dsimp only) <;> split_ifs <;>
        first | rfl | omega | simp_all | (simp_all; omega)
  · simp only [report_throttle, scale_down_if_needed]
    cases maxR <;> cases warm <;> (try dsimp only) <;> split_ifs <;>
      first | rfl | omega | simp_all | (simp_all; omega)

/-- C8 witness: a warmup autoscale state with 19 consecutive successes and
batch size 10 scales to 15 on the next success; the same state with 4
consecutive throttles cuts to max(10·4/5, 5) = 8 on the next throttle. -/
theorem c8_aggressive_policy_witness :
    ((⟨true, 10, 5, 300, 50, 19, 4, 0, 0, 0, 10, true, 0, false, 0, 5⟩ :
        AdaptiveThrottleManager).isAutoscale = true) ∧
    ((⟨true, 10, 5, 300, 50, 19, 4, 0, 0, 0, 10, true, 0, false, 0, 5⟩ :
        AdaptiveThrottleManager).throttleTolerance = 5) ∧
    (report_success
        (⟨true, 10, 5, 300, 50, 19, 4, 0, 0, 0, 10, true, 0, false, 0, 5⟩ :
          AdaptiveThrottleManager) 1).currentBatchSize = 15 ∧
    (report_throttle
        (⟨true, 10, 5, 300, 50, 19, 4, 0, 0, 0, 10, true, 0, false, 0, 5⟩ :
          AdaptiveThrottleManager)).currentBatchSize = 8 := by
  have h := c8_aggressive_policy
    ⟨true, 10, 5, 300, 50, 19, 4, 0, 0, 0, 10, true, 0, false, 0, 5⟩ 1 rfl rfl
  refine ⟨rfl, rfl, ?_, ?_⟩
  · rw [h.1]; decide
  · rw [h.2]; decide

/-! ## Claim C10: the batch size stays within `[min_batch_size, max_batch_size]` -/

set_option maxHeartbeats 1000000 in
lemma report_success_bounds (s : AdaptiveThrottleManager) (ru : ℚ)
    (h1 : s.minBatchSize ≤ s.currentBatchSize) (h2 : s.currentBatchSize ≤ s.maxBatchSize) :
    (report_success s ru).minBatchSize = s.minBatchSize ∧
    (report_success s ru).maxBatchSize = s.maxBatchSize ∧
    s.minBatchSize ≤ (report_success s ru).currentBatchSize ∧
    (report_success s ru).currentBatchSize ≤ s.maxBatchSize := by
  obtain ⟨auto, cur, minB, maxB, mc, cs, ct, tt, trc, tops, avg, warm, ops, maxR, high, tol⟩ := s
  dsimp only at h1 h2 ⊢
  simp only [report_success, scale_up_if_needed]
  rcases lt_or_le 0 ru with hru | hru
  · rw [if_pos hru]
    cases auto <;> cases warm <;> (try simp) <;> split_ifs <;>
      first
        | exact ⟨rfl, rfl, by omega, by omega⟩
        | (simp_all; omega)
        | (simp_all <;> omega)
        | (refine ⟨by simp_all, by simp_all, ?_, ?_⟩ <;> simp_all <;> omega)
  · rw [if_neg (not_lt.mpr hru)]
    cases auto <;> cases warm <;> (try simp) <;> split_ifs <;>
      first
        | exact ⟨rfl, rfl, by omega, by omega⟩
        | (simp_all; omega)
        | (simp_all <;> omega)
        | (refine ⟨by simp_all, by simp_all, ?_, ?_⟩ <;> simp_all <;> omega)

set_option maxHeartbeats 1000000 in
lemma report_throttle_bounds (s : AdaptiveThrottleManager)
    (h1 : s.minBatchSize ≤ s.currentBatchSize) (h2 : s.currentBatchSize ≤ s.maxBatchSize) :
    (report_throttle s).minBatchSize = s.minBatchSize ∧
    (report_throttle s).maxBatchSize = s.maxBatchSize ∧
    s.minBatchSize ≤ (report_throttle s).currentBatchSize ∧
    (report_throttle s).currentBatchSize ≤ s.maxBatchSize := by
  obtain ⟨auto, cur, minB, maxB, mc, cs, ct, tt, trc, tops, avg, warm, ops, maxR, high, tol⟩ := s
  dsimp only at h1 h2 ⊢
  simp only [report_throttle, scale_down_if_needed]
  cases auto <;> cases maxR <;> cases warm <;> (try simp) <;> split_ifs <;>
    first
      | exact ⟨rfl, rfl, by omega, by omega⟩
      | (simp_all; omega)
      | (simp_all <;> omega)
      | (refine ⟨by simp_all, by simp_all, ?_, ?_⟩ <;> simp_all <;> omega)

lemma applyThrottleEvents_bounds (events : List ThrottleEvent) :
    ∀ s : AdaptiveThrottleManager,
      s.minBatchSize ≤ s.currentBatchSize → s.currentBatchSize ≤ s.maxBatchSize →
      (applyThrottleEvents s events).minBatchSize = s.minBatchSize ∧
      (applyThrottleEvents s events).maxBatchSize = s.maxBatchSize ∧
      s.minBatchSize ≤ (applyThrottleEvents s events).currentBatchSize ∧
      (applyThrottleEvents s events).currentBatchSize ≤ s.maxBatchSize := by
  induction events with
  | nil => exact fun s h1 h2 => ⟨rfl, rfl, h1, h2⟩
  | cons e es ih =>
    intro s h1 h2
    cases e with
    | success ru =>
      obtain ⟨hmin, hmax, hlo, hhi⟩ := report_success_bounds s ru h1 h2
      obtain ⟨hmin', hmax', hlo', hhi'⟩ :=
        ih (report_success s ru) (hmin ▸ hlo) (hmax ▸ hhi)
      exact ⟨hmin ▸ hmin', hmax ▸ hmax',
        by rw [applyThrottleEvents]; omega, by rw [applyThrottleEvents]; omega⟩
    | throttle =>
      obtain ⟨hmin, hmax, hlo, hhi⟩ := report_throttle_bounds s h1 h2
      obtain ⟨hmin', hmax', hlo', hhi'⟩ :=
        ih (report_throttle s) (hmin ▸ hlo) (hmax ▸ hhi)
      exact ⟨hmin ▸ hmin', hmax ▸ hmax',
        by rw [applyThrottleEvents]; omega, by rw [applyThrottleEvents]; omega⟩

lemma concurrency_config_batch_bounds (provisionedRus avg : ℚ) (isAuto isServ : Bool)
    (total : ℕ) :
    (calculate_optimal_concurrency provisionedRus isAuto isServ total avg).minBatchSize ≤
      (calculate_optimal_concurrency provisionedRus isAuto isServ total avg).initialBatchSize ∧
    (calculate_optimal_concurrency provisionedRus isAuto isServ total avg).initialBatchSize ≤
      (calculate_optimal_concurrency provisionedRus isAuto isServ total avg).maxBatchSize := by
  simp only [calculate_optimal_concurrency, MIN_CONCURRENT_OPERATIONS]
  cases isAuto <;> cases isServ <;> (try dsimp only) <;> split_ifs <;> constructor <;> omega

/-- C10: for every `AdaptiveThrottleManager` initialized from the output of
`calculate_optimal_concurrency` (any provisioned throughput, throughput mode,
document count and average document size), and every finite sequence of
`report_success`/`report_throttle` calls, the current batch size stays within
the closed interval `[min_batch_size, max_batch_size]` after every call,
including initially (the empty sequence). -/
theorem c10_batch_size_invariant (provisionedRus avg : ℚ) (isAuto isServ : Bool)
    (total : ℕ) (events : List ThrottleEvent) :
    (calculate_optimal_concurrency provisionedRus isAuto isServ total avg).minBatchSize ≤
      (applyThrottleEvents
        (AdaptiveThrottleManager.init
          (calculate_optimal_concurrency provisionedRus isAuto isServ total avg))
        events).currentBatchSize ∧
    (applyThrottleEvents
        (AdaptiveThrottleManager.init
          (calculate_optimal_concurrency provisionedRus isAuto isServ total avg))
        events).currentBatchSize ≤
      (calculate_optimal_concurrency provisionedRus isAuto isServ total avg).maxBatchSize := by
  obtain ⟨hlo, hhi⟩ := concurrency_config_batch_bounds provisionedRus avg isAuto isServ total
  obtain ⟨hmin, hmax, hlo', hhi'⟩ := applyThrottleEvents_bounds events
    (AdaptiveThrottleManager.init
      (calculate_optimal_concurrency provisionedRus isAuto isServ total avg)) hlo hhi
  exact ⟨hlo', hhi'⟩

/-- C9: the result of upserting a document is independent of the extracted
partition key: for every response oracle, document, throttle-manager state,
jitter and throughput mode, any two values passed as the `partition_key`
argument produce the same issued request and the same
`(success, error, document, ru_charge)` result, throttle state and sleeps
— the value `_extract_partition_key` computes is never used in the upsert
call (`container.upsert_item(body=doc)` takes only the document). -/
theorem c9_partition_key_independence (oracle : ℕ → CosmosResp) (doc : Fields)
    (k1 k2 : V) (tm : AdaptiveThrottleManager) (isAutoscale : Bool) (jitter : ℕ → ℚ) :
    upsert_item_with_retry oracle doc k1 tm isAutoscale jitter =
      upsert_item_with_retry oracle doc k2 tm isAutoscale jitter := rfl

/-- C5: when the caller supplies `partition_key_path` together with
`partition_key_value = [v]` and `v` is not among the partition-key values
present in the source container, the export activity fails with a
configuration error (`ValueError`) and its trace contains no document read
and no object-store write — the store is unchanged. -/
theorem c5_partition_validation_fails_early (fresh : ℕ → String)
    (jsonParse : String → Option V) (env : ExportEnv) (container : String)
    (path : String) (v : V) (hpath : path ≠ "")
    (hnotin : v ∉ env.discoveredValues) :
    (process_cosmos_to_adls_activity fresh jsonParse env container (some path)
        (some (.arr (.cons v .nil)))).1.isOk = false ∧
    (process_cosmos_to_adls_activity fresh jsonParse env container (some path)
        (some (.arr (.cons v .nil)))).2 = [] := by
  have hsetup : ∃ e, setup_partition_configuration jsonParse env (some path)
      (some (.arr (.cons v .nil))) = .error e := by
    simp only [setup_partition_configuration, Option.elim, V.truthy, VList.toList,
      hpath, ne_eq]
    by_cases hmem : path ∈ env.partitionKeyPaths
    · simp [hmem, hnotin, VList.toList]
    · simp [hmem, VList.toList]
  obtain ⟨e, he⟩ := hsetup
  simp [process_cosmos_to_adls_activity, he, Except.isOk, Except.toBool]

/-- C5 witness: container with partition path `/pk` and discovered values
`{"a"}`; requesting value `"zzz"` errors with an empty trace. -/
theorem c5_partition_validation_witness :
    ("/pk" ≠ "") ∧
    (V.str "zzz" ∉ (⟨["/pk"], [V.str "a"],
        [[Fields.cons "id" (V.str "d1") .nil]]⟩ : ExportEnv).discoveredValues) ∧
    ((process_cosmos_to_adls_activity ridSupply (fun _ => none)
        ⟨["/pk"], [V.str "a"], [[Fields.cons "id" (V.str "d1") .nil]]⟩ "cont"
        (some "/pk") (some (.arr (.cons (V.str "zzz") .nil)))).1.isOk = false ∧
     (process_cosmos_to_adls_activity ridSupply (fun _ => none)
        ⟨["/pk"], [V.str "a"], [[Fields.cons "id" (V.str "d1") .nil]]⟩ "cont"
        (some "/pk") (some (.arr (.cons (V.str "zzz") .nil)))).2 = []) :=
  ⟨by decide, by decide,
   c5_partition_validation_fails_early ridSupply (fun _ => none) _ "cont" "/pk"
     (V.str "zzz") (by decide) (by decide)⟩

set_option maxHeartbeats 8000000 in
/-- C1: the round-trip law fails on the code.  Shredding
`{"id":"D","a":[{"b":[{"x":1}],"ab":[{"y":2}]}]}` and stitching the tables
back yields `{"id":"D","a":[{"b":[{"y":2},{"x":1}],"ab":[]}]}` — the
children of table `a.ab` are attached into the sibling array `b`, because
`_add_children_to_array` (mask pipeline, line 1477) matches markers by
*string* suffix (`arr_name.endswith(marker)`) and `"a.ab"` string-ends with
the marker `"b"`.  The result differs from `strip_system(d)`, violating the
claimed law on a document with homogeneous arrays and plain keys. -/
theorem c1_roundtrip_violation :
    shred_then_stitch ridSupply (fun _ => none) 6 "exp/cont" "cont" docSuffixConfusion =
      [V.obj (.cons "id" (.str "D")
        (.cons "a" (.arr (.cons (.obj
          (.cons "b" (.arr (.cons (.obj (.cons "y" (.num 2) .nil))
            (.cons (.obj (.cons "x" (.num 1) .nil)) .nil)))
            (.cons "ab" (.arr .nil) .nil))) .nil)) .nil))] ∧
    shred_then_stitch ridSupply (fun _ => none) 6 "exp/cont" "cont" docSuffixConfusion ≠
      [stripSysV (V.obj docSuffixConfusion)] := by
  decide

/-! ## Claim C6: DataError rows -/

set_option maxHeartbeats 4000000 in
/-- C6 (counterexample): a parent row whose marker `_has_array_a.b`
navigates into the scalar `a = 5` is *not* dropped: its reconstructed
document `{"id":"P","a":5}` is kept in the batch output (the marker is
silently discarded by `_initialize_arrays_from_markers`, lines 1361-1375),
and no counter records it (the returned child-row count is 0). -/
theorem c6_counterexample :
    stitch_tables (fun _ => none) 6 "exp/cont" "cont"
      [Fields.cons "id" (.str "P") (.cons "a" (.num 5)
        (.cons "_has_array_a.b" (.bool true) (.cons "_rid" (.str "p1") .nil)))] [] =
      ([V.obj (.cons "id" (.str "P") (.cons "a" (.num 5) .nil))], 0) := by
  decide

lemma processKeptRows_count (jsonParse : String → Option V) :
    ∀ (rows : List Fields) (store : Store),
      (processKeptRows jsonParse rows store).1 = rows.length := by
  intro rows
  induction rows with
  | nil => intro store; rfl
  | cons r tl ih =>
    intro store
    simp only [processKeptRows, List.length_cons]
    rw [ih]

lemma parentRid_hasKey {r : Fields} {S : List String} (hS : S.contains "" = false)
    (hmem : S.contains (parentRidStr r) = true) : r.hasKey "_parent_rid" = true := by
  unfold parentRidStr cellRidStr at hmem
  unfold Fields.hasKey
  cases h : r.get? "_parent_rid" with
  | none => rw [h] at hmem; rw [hmem] at hS; exact absurd hS (by simp)
  | some v => simp [h]

/-- C6 (amended): during import, a child row whose `_parent_rid` is missing
or does not resolve to a rid in the filter set is silently dropped —
processing the table is identical to processing it without such rows, and
the remaining rows continue to be processed in order — but it is *not*
counted: the only per-row counter counts exactly the kept rows, and no
DataError counter exists.  A row whose `_has_array_<p>` marker navigates
into a scalar keeps its document: the marker is discarded without
initializing the array. -/
theorem c6_dataerror_rows_dropped_uncounted (jsonParse : String → Option V)
    (rows : List Fields) (S : List String) (store : Store) (scalar : V)
    (hS : S.contains "" = false) (hsc : scalar.isObj = false) :
    process_child_csv_streaming jsonParse rows S store =
      process_child_csv_streaming jsonParse
        (rows.filter (fun r => S.contains (parentRidStr r))) S store ∧
    (process_child_csv_streaming jsonParse rows S store).1 =
      (rows.filter (fun r => S.contains (parentRidStr r))).length ∧
    initObjArrays (.cons "a" scalar (.cons "_has_array_a.b" (.bool true) .nil)) =
      .cons "a" scalar .nil := by
  have hidem : (rows.filter (fun r => S.contains (parentRidStr r))).filter
      (fun r => S.contains (parentRidStr r)) =
      rows.filter (fun r => S.contains (parentRidStr r)) := by
    simp [List.filter_filter]
  have hmarker : initObjArrays (.cons "a" scalar (.cons "_has_array_a.b" (.bool true) .nil)) =
      .cons "a" scalar .nil := by
    cases scalar <;> simp_all [initObjArrays, initArrayAt, isMarkerKey, Fields.keys,
      V.isObj, dropMarkerTag, splitOnChar, splitOnCharAux, Fields.get?, Fields.erase,
      Fields.set, strStarts, listIsPfx]
  have hmain : process_child_csv_streaming jsonParse rows S store =
      process_child_csv_streaming jsonParse
        (rows.filter (fun r => S.contains (parentRidStr r))) S store := by
    unfold process_child_csv_streaming
    by_cases hk : rows.filter (fun r => S.contains (parentRidStr r)) = []
    · rw [hk]
      by_cases hany : rows.any (fun r => r.hasKey "_parent_rid")
      · simp [hany, hk, processKeptRows]
      · simp [hany]
    · have hkeep : (rows.filter (fun r => S.contains (parentRidStr r))).any
          (fun r => r.hasKey "_parent_rid") = true := by
        obtain ⟨r, hr⟩ := List.exists_mem_of_ne_nil _ hk
        have hmem := List.mem_filter.mp hr
        exact List.any_eq_true.mpr ⟨r, hr, parentRid_hasKey hS (by simpa using hmem.2)⟩
      have hany : rows.any (fun r => r.hasKey "_parent_rid") = true := by
        obtain ⟨r, hr⟩ := List.exists_mem_of_ne_nil _ hk
        have hmem := List.mem_filter.mp hr
        exact List.any_eq_true.mpr
          ⟨r, hmem.1, parentRid_hasKey hS (by simpa using hmem.2)⟩
      rw [hany, hkeep, hidem]
  refine ⟨hmain, ?_, hmarker⟩
  rw [hmain]
  by_cases hk2 : (rows.filter (fun r => S.contains (parentRidStr r))).any
      (fun r => r.hasKey "_parent_rid")
  · unfold process_child_csv_streaming
    rw [if_pos hk2, hidem, processKeptRows_count]
  · unfold process_child_csv_streaming
    rw [if_neg (by simpa using hk2)]
    have : rows.filter (fun r => S.contains (parentRidStr r)) = [] := by
      by_contra hne
      obtain ⟨r, hr⟩ := List.exists_mem_of_ne_nil _ hne
      have hmem := List.mem_filter.mp hr
      have := parentRid_hasKey hS (by simpa using hmem.2)
      exact absurd (List.any_eq_true.mpr ⟨r, hr, this⟩) (by simpa using hk2)
    have h0 := congrArg List.length this
    simp only [List.length_nil] at h0
    simpa using h0.symm

/-- C6 witness: with filter set `{r0}`, the row with parent `zz` is dropped
(the run equals the run on the kept rows alone), the counter counts the one
kept row, and a marker into the scalar 5 leaves `{"a": 5}` intact. -/
theorem c6_dataerror_witness :
    ((["r0"] : List String).contains "" = false) ∧
    ((V.num 5).isObj = false) ∧
    (process_child_csv_streaming (fun _ => none) c6Rows ["r0"] [] =
      process_child_csv_streaming (fun _ => none)
        (c6Rows.filter (fun r => (["r0"] : List String).contains (parentRidStr r)))
        ["r0"] [] ∧
     (process_child_csv_streaming (fun _ => none) c6Rows ["r0"] []).1 =
      (c6Rows.filter (fun r => (["r0"] : List String).contains (parentRidStr r))).length ∧
     initObjArrays (.cons "a" (V.num 5) (.cons "_has_array_a.b" (.bool true) .nil)) =
      .cons "a" (V.num 5) .nil) :=
  ⟨by decide, by decide,
   c6_dataerror_rows_dropped_uncounted (fun _ => none) c6Rows ["r0"] [] (.num 5)
     (by decide) (by decide)⟩
